import Mathlib

/-!
Verification of the hifzer-backend scheduling core against its
natural-language specification.

The definitions below are a shallow embedding of the TypeScript sources:
  * `src/lib/spacing.ts`   — checkpoint ladder, outcome classification,
                             next-review computation, difficulty EWMA;
  * `src/lib/time.ts`      — UTC time arithmetic (timestamps are modelled as
                             integer milliseconds since the Unix epoch,
                             exactly as a JS `Date` stores them);
  * `src/modules/session/reducer.service.ts` — promotion gate and the
                             per-item event fold `rebuildItemState`;
  * `src/modules/session/session.service.ts` — event-store ingest and the
                             3×3 step-protocol state machine;
  * `src/modules/fluencyGate/fluency-gate.service.ts` — fluency score;
  * `src/modules/queue/queue.service.ts` — debt metrics, queue-mode
                             selection, warm-up evaluation, Manzil rotation.

JS `number` values that are always integers in these code paths are
modelled as `Nat`/`Int`; the difficulty EWMA (steps of 0.01) is modelled
in exact hundredths, and the fluency-score intermediates are modelled as
`ℚ` (exact arithmetic; every value involved is a multiple of 1/6, far
beyond double-precision error from any boundary the code compares
against, so exact arithmetic and JS floats classify every integer input
identically).
-/

namespace Hifzer

/-! ## Spacing engine (`src/lib/spacing.ts`) -/

inductive ReviewTier where
  | SABAQ
  | SABQI
  | MANZIL
deriving DecidableEq, Repr

inductive ReviewOutcome where
  | perfect
  | minor
  | fail
deriving DecidableEq, Repr

def SRS_CHECKPOINTS_SECONDS : List Nat :=
  [4 * 60 * 60,
   8 * 60 * 60,
   1 * 24 * 60 * 60,
   3 * 24 * 60 * 60,
   7 * 24 * 60 * 60,
   14 * 24 * 60 * 60,
   30 * 24 * 60 * 60,
   90 * 24 * 60 * 60]

/-- `addSeconds` from `src/lib/time.ts`: JS dates carry milliseconds. -/
def addSeconds (date : Int) (seconds : Int) : Int :=
  date + seconds * 1000

def outcomeFromAttempt (success : Bool) (errorsCount : Nat) : ReviewOutcome :=
  if !success then ReviewOutcome.fail
  else if errorsCount = 0 then ReviewOutcome.perfect
  else if errorsCount ≤ 2 then ReviewOutcome.minor
  else ReviewOutcome.fail

def nextCheckpointIndex (currentIndex : Nat) (outcome : ReviewOutcome) : Nat :=
  match outcome with
  | ReviewOutcome.perfect => min (currentIndex + 1) (SRS_CHECKPOINTS_SECONDS.length - 1)
  | ReviewOutcome.minor => currentIndex
  | ReviewOutcome.fail => 0

def tierFromCheckpoint (index : Nat) : ReviewTier :=
  if index ≤ 1 then ReviewTier.SABAQ
  else if index ≤ 5 then ReviewTier.SABQI
  else ReviewTier.MANZIL

/-- `findIndex(cp => cp >= currentIntervalSeconds)` with the `-1` fallback
mapped to the last ladder index, as in the source. -/
def checkpointIndexForInterval (currentIntervalSeconds : Nat) : Nat :=
  match SRS_CHECKPOINTS_SECONDS.findIdx? (fun cp => currentIntervalSeconds ≤ cp) with
  | some i => i
  | none => SRS_CHECKPOINTS_SECONDS.length - 1

structure NextReview where
  nextReviewAt : Int
  reviewIntervalSeconds : Nat
  checkpointIndex : Nat
deriving DecidableEq, Repr

def calculateNextReview (currentIntervalSeconds : Nat) (success : Bool)
    (errorsCount : Nat) (anchorAt : Int) : NextReview :=
  let currentIndex := checkpointIndexForInterval currentIntervalSeconds
  let outcome := outcomeFromAttempt success errorsCount
  let checkpointIndex := nextCheckpointIndex currentIndex outcome
  let interval := SRS_CHECKPOINTS_SECONDS.getD checkpointIndex 0
  { nextReviewAt := addSeconds anchorAt (interval : Int)
    reviewIntervalSeconds := interval
    checkpointIndex := checkpointIndex }

/-- `adjustDifficulty` keeps the difficulty EWMA clamped to `[0,1]`.
It is modelled in exact hundredths (`0.1 ↦ 10`, `0.03 ↦ 3`, `0.05 ↦ 5`,
the clamp `[0,1] ↦ [0,100]`); truncated `Nat` subtraction is exactly the
`max(0, …)` clamp. -/
def adjustDifficulty (current : Nat) (outcome : ReviewOutcome) : Nat :=
  match outcome with
  | ReviewOutcome.fail => min 100 (current + 10)
  | ReviewOutcome.minor => min 100 (current + 3)
  | ReviewOutcome.perfect => current - 5

/-! ## Promotion gate (`src/modules/session/reducer.service.ts`) -/

/-- `dayKey` slices the ISO string to its `YYYY-MM-DD` prefix; two
timestamps get the same key exactly when they fall in the same UTC day,
so a day is modelled by its number since the epoch (floored division). -/
def dayNumber (ms : Int) : Int :=
  Int.fdiv ms 86400000

structure PromotionResult where
  consecutivePerfectDays : Nat
  perfectDay : Option Int
  tier : ReviewTier
deriving DecidableEq, Repr

def applyPromotionGate (previousConsecutivePerfectDays : Nat)
    (previousPerfectDay : Option Int) (eventOccurredAt : Int)
    (success : Bool) (errorsCount : Nat) (checkpointIndex : Nat) :
    PromotionResult :=
  let isPerfect := success && errorsCount = 0
  if isPerfect then
    let eventDay := dayNumber eventOccurredAt
    let consecutivePerfectDays :=
      match previousPerfectDay with
      | none => 1
      | some previous =>
        let diffDays := eventDay - previous
        if diffDays = 0 then previousConsecutivePerfectDays
        else if diffDays = 1 then previousConsecutivePerfectDays + 1
        else 1
    let checkpointTier := tierFromCheckpoint checkpointIndex
    let tier :=
      if checkpointTier = ReviewTier.MANZIL ∧ consecutivePerfectDays < 7 then
        ReviewTier.SABQI
      else checkpointTier
    { consecutivePerfectDays := consecutivePerfectDays
      perfectDay := some eventDay
      tier := tier }
  else
    let checkpointTier := tierFromCheckpoint checkpointIndex
    let tier :=
      if checkpointTier = ReviewTier.MANZIL ∧ (0 : Nat) < 7 then
        ReviewTier.SABQI
      else checkpointTier
    { consecutivePerfectDays := 0
      perfectDay := none
      tier := tier }

/-! ## The reducer fold (`rebuildItemState`) -/

/-- One stored `REVIEW_ATTEMPTED` event as the reducer reads it back:
`success = Boolean(event.success)`, `errorsCount = event.errorsCount ?? 0`,
and a null/absent `durationSeconds` is 0 (the loop guards on
`durationSeconds && durationSeconds > 0`, so 0 and null behave alike). -/
structure StoredReviewEvent where
  occurredAt : Int
  success : Bool
  errorsCount : Nat
  durationSeconds : Nat
deriving DecidableEq, Repr

structure ItemState where
  checkpointIndex : Nat
  intervalSeconds : Nat
  nextReviewAt : Int
  tier : ReviewTier
  introducedAt : Int
  firstMemorizedAt : Option Int
  difficultyScore : Nat
  totalReviews : Nat
  successfulReviews : Nat
  lapses : Nat
  successStreak : Nat
  averageDurationSeconds : Nat
  lastErrorsCount : Nat
  consecutivePerfectDays : Nat
  lastPerfectDay : Option Int
  lastReviewedAt : Option Int
  lastEventOccurredAt : Option Int
deriving DecidableEq, Repr

/-- `Math.round(a / n)` for non-negative integer `a` and positive `n`
(round half away from zero, which is round half up here). -/
def jsRoundDiv (a n : Nat) : Nat :=
  (2 * a + n) / (2 * n)

/-- The body of the `for (const event of events)` loop in
`rebuildItemState`, acting on the loop's mutable locals. -/
def applyEvent (s : ItemState) (e : StoredReviewEvent) : ItemState :=
  let next := calculateNextReview s.intervalSeconds e.success e.errorsCount e.occurredAt
  let outcome := outcomeFromAttempt e.success e.errorsCount
  let totalReviews := s.totalReviews + 1
  let averageDurationSeconds :=
    if 0 < e.durationSeconds then
      jsRoundDiv (s.averageDurationSeconds * (totalReviews - 1) + e.durationSeconds)
        totalReviews
    else s.averageDurationSeconds
  let promotion := applyPromotionGate s.consecutivePerfectDays s.lastPerfectDay
    e.occurredAt e.success e.errorsCount next.checkpointIndex
  { checkpointIndex := next.checkpointIndex
    intervalSeconds := next.reviewIntervalSeconds
    nextReviewAt := next.nextReviewAt
    tier := promotion.tier
    introducedAt := s.introducedAt
    firstMemorizedAt :=
      if s.firstMemorizedAt = none ∧ 2 ≤ next.checkpointIndex then
        some e.occurredAt
      else s.firstMemorizedAt
    difficultyScore := adjustDifficulty s.difficultyScore outcome
    totalReviews := totalReviews
    successfulReviews := s.successfulReviews + (if e.success then 1 else 0)
    lapses := s.lapses + (if e.success then 0 else 1)
    successStreak := if e.success then s.successStreak + 1 else 0
    averageDurationSeconds := averageDurationSeconds
    lastErrorsCount := e.errorsCount
    consecutivePerfectDays := promotion.consecutivePerfectDays
    lastPerfectDay := promotion.perfectDay
    lastReviewedAt := some e.occurredAt
    lastEventOccurredAt := some e.occurredAt }

def initialItemState (e0 : StoredReviewEvent) : ItemState :=
  { checkpointIndex := 0
    intervalSeconds := 4 * 60 * 60
    nextReviewAt := e0.occurredAt
    tier := ReviewTier.SABAQ
    introducedAt := e0.occurredAt
    firstMemorizedAt := none
    difficultyScore := 0
    totalReviews := 0
    successfulReviews := 0
    lapses := 0
    successStreak := 0
    averageDurationSeconds := 0
    lastErrorsCount := 0
    consecutivePerfectDays := 0
    lastPerfectDay := none
    lastReviewedAt := none
    lastEventOccurredAt := none }

/-- `rebuildItemState` on the (already `(occurredAt, id)`-ordered) list of
`REVIEW_ATTEMPTED` events for one `(user, ayah)` pair; `none` when there
are no events (the upsert is skipped). -/
def rebuildItemState (events : List StoredReviewEvent) : Option ItemState :=
  match events with
  | [] => none
  | e0 :: _ => some (events.foldl applyEvent (initialItemState e0))

/-! ## Checkpoint traces: the fold as the reducer runs it (carrying the
interval and re-deriving the index via `checkpointIndexForInterval`)
versus a fold that carries the checkpoint index directly. -/

def intervalFoldStep (acc : Nat × List Nat) (e : StoredReviewEvent) : Nat × List Nat :=
  let r := calculateNextReview acc.1 e.success e.errorsCount e.occurredAt
  (r.reviewIntervalSeconds, acc.2 ++ [r.checkpointIndex])

/-- Checkpoint indices produced event by event when only the interval
seconds are carried between events, as in `rebuildItemState`. -/
def intervalCheckpointTrace (events : List StoredReviewEvent) : List Nat :=
  (events.foldl intervalFoldStep (4 * 60 * 60, [])).2

def indexFoldStep (acc : Nat × List Nat) (e : StoredReviewEvent) : Nat × List Nat :=
  let j := nextCheckpointIndex acc.1 (outcomeFromAttempt e.success e.errorsCount)
  (j, acc.2 ++ [j])

/-- Checkpoint indices produced when the index itself is carried. -/
def directIndexTrace (events : List StoredReviewEvent) : List Nat :=
  (events.foldl indexFoldStep (0, [])).2

/-! ## Concrete event sequences from the spec's end-to-end scenarios.
Timestamps are UTC epoch milliseconds; 2026-02-01T10:00:00Z is
1769940000000 and consecutive days differ by 86400000. -/

/-- S1: eight perfect reviews at 10:00Z on 2026-02-01 … 2026-02-08. -/
def s1Events : List StoredReviewEvent :=
  [⟨1769940000000, true, 0, 0⟩,
   ⟨1770026400000, true, 0, 0⟩,
   ⟨1770112800000, true, 0, 0⟩,
   ⟨1770199200000, true, 0, 0⟩,
   ⟨1770285600000, true, 0, 0⟩,
   ⟨1770372000000, true, 0, 0⟩,
   ⟨1770458400000, true, 0, 0⟩,
   ⟨1770544800000, true, 0, 0⟩]

/-- The state `rebuildItemState` computes from `s1Events`. -/
def s1FinalState : ItemState :=
  { checkpointIndex := 7
    intervalSeconds := 7776000
    nextReviewAt := 1778320800000
    tier := ReviewTier.MANZIL
    introducedAt := 1769940000000
    firstMemorizedAt := some 1770026400000
    difficultyScore := 0
    totalReviews := 8
    successfulReviews := 8
    lapses := 0
    successStreak := 8
    averageDurationSeconds := 0
    lastErrorsCount := 0
    consecutivePerfectDays := 8
    lastPerfectDay := some 20492
    lastReviewedAt := some 1770544800000
    lastEventOccurredAt := some 1770544800000 }

/-- S2: three perfect reviews on consecutive days, then a failing attempt
(`success = false`, `errorsCount = 3`). -/
def s2Events : List StoredReviewEvent :=
  [⟨1769940000000, true, 0, 0⟩,
   ⟨1770026400000, true, 0, 0⟩,
   ⟨1770112800000, true, 0, 0⟩,
   ⟨1770199200000, false, 3, 0⟩]

/-! ## Helper lemmas about the ladder and the promotion gate -/

lemma checkpointIndexForInterval_ladder (i : Nat) (h : i ≤ 7) :
    checkpointIndexForInterval (SRS_CHECKPOINTS_SECONDS.getD i 0) = i := by
  interval_cases i <;> decide

lemma nextCheckpointIndex_le (i : Nat) (h : i ≤ 7) (o : ReviewOutcome) :
    nextCheckpointIndex i o ≤ 7 := by
  cases o <;> simp [nextCheckpointIndex, SRS_CHECKPOINTS_SECONDS]
  all_goals omega

lemma calculateNextReview_ladder (i : Nat) (h : i ≤ 7) (s : Bool) (e : Nat) (t : Int) :
    calculateNextReview (SRS_CHECKPOINTS_SECONDS.getD i 0) s e t =
      { nextReviewAt := addSeconds t
          ((SRS_CHECKPOINTS_SECONDS.getD (nextCheckpointIndex i (outcomeFromAttempt s e)) 0 : Nat) : Int)
        reviewIntervalSeconds :=
          SRS_CHECKPOINTS_SECONDS.getD (nextCheckpointIndex i (outcomeFromAttempt s e)) 0
        checkpointIndex := nextCheckpointIndex i (outcomeFromAttempt s e) } := by
  unfold calculateNextReview
  rw [checkpointIndexForInterval_ladder i h]

lemma demote_manzil (ct : ReviewTier) (n : Nat) :
    (if ct = ReviewTier.MANZIL ∧ n < 7 then ReviewTier.SABQI else ct) = ReviewTier.MANZIL →
    7 ≤ n := by
  split_ifs with h
  · intro hx
    exact absurd hx (by decide)
  · intro hx
    rcases not_and_or.mp h with h2 | h2
    · exact absurd hx h2
    · omega

lemma applyPromotionGate_manzil (pcpd : Nat) (ppd : Option Int) (t : Int)
    (s : Bool) (e : Nat) (ci : Nat) :
    (applyPromotionGate pcpd ppd t s e ci).tier = ReviewTier.MANZIL →
    7 ≤ (applyPromotionGate pcpd ppd t s e ci).consecutivePerfectDays := by
  unfold applyPromotionGate
  by_cases hp : (s && decide (e = 0)) = true
  · rw [if_pos hp]
    exact demote_manzil _ _
  · rw [if_neg hp]
    intro h
    exact absurd (demote_manzil _ 0 h) (by omega)

lemma applyEvent_manzil (s : ItemState) (e : StoredReviewEvent)
    (h : (applyEvent s e).tier = ReviewTier.MANZIL) :
    7 ≤ (applyEvent s e).consecutivePerfectDays := by
  exact applyPromotionGate_manzil _ _ _ _ _ _ h

lemma foldl_applyEvent_manzil (l : List StoredReviewEvent) :
    ∀ s : ItemState,
      (s.tier = ReviewTier.MANZIL → 7 ≤ s.consecutivePerfectDays) →
      (l.foldl applyEvent s).tier = ReviewTier.MANZIL →
      7 ≤ (l.foldl applyEvent s).consecutivePerfectDays := by
  induction l with
  | nil => intro s hs; simpa using hs
  | cons e es ih =>
    intro s _ h
    exact ih (applyEvent s e) (applyEvent_manzil s e) h

lemma outcome_perfect_iff (s : Bool) (e : Nat) :
    outcomeFromAttempt s e = ReviewOutcome.perfect ↔ s = true ∧ e = 0 := by
  cases s <;> simp only [outcomeFromAttempt, Bool.not_true, Bool.not_false] <;>
    split_ifs <;> simp_all

lemma outcome_minor_iff (s : Bool) (e : Nat) :
    outcomeFromAttempt s e = ReviewOutcome.minor ↔ s = true ∧ 1 ≤ e ∧ e ≤ 2 := by
  cases s <;> simp only [outcomeFromAttempt, Bool.not_true, Bool.not_false] <;>
    split_ifs <;> simp_all
  all_goals omega

lemma outcome_fail_iff (s : Bool) (e : Nat) :
    outcomeFromAttempt s e = ReviewOutcome.fail ↔ s = false ∨ 2 < e := by
  cases s <;> simp only [outcomeFromAttempt, Bool.not_true, Bool.not_false] <;>
    split_ifs <;> simp_all

lemma foldl_interval_index (events : List StoredReviewEvent) :
    ∀ (idx : Nat) (trace : List Nat), idx ≤ 7 →
      events.foldl intervalFoldStep (SRS_CHECKPOINTS_SECONDS.getD idx 0, trace) =
        (SRS_CHECKPOINTS_SECONDS.getD (events.foldl indexFoldStep (idx, trace)).1 0,
         (events.foldl indexFoldStep (idx, trace)).2) := by
  induction events with
  | nil => intro idx trace _; rfl
  | cons e es ih =>
    intro idx trace h
    have hstep : intervalFoldStep (SRS_CHECKPOINTS_SECONDS.getD idx 0, trace) e =
        (SRS_CHECKPOINTS_SECONDS.getD
            (nextCheckpointIndex idx (outcomeFromAttempt e.success e.errorsCount)) 0,
         trace ++ [nextCheckpointIndex idx (outcomeFromAttempt e.success e.errorsCount)]) := by
      simp only [intervalFoldStep]
      rw [calculateNextReview_ladder idx h]
    rw [List.foldl_cons, hstep, List.foldl_cons]
    exact ih _ _ (nextCheckpointIndex_le idx h _)

/-! ## Claim theorems: spacing engine and reducer -/

/-- C1 (counterexample): reducing the S1 sequence of eight perfect daily
events yields `firstMemorizedAt = 2026-02-02T10:00:00Z` (1770026400000),
not `2026-02-03T10:00:00Z` (1770112800000) as the claim states: the
checkpoint index already reaches 2 on the second event. -/
theorem s1_firstMemorizedAt_not_feb3 :
    (rebuildItemState s1Events).map ItemState.firstMemorizedAt ≠
      some (some 1770112800000) ∧
    (rebuildItemState s1Events).map ItemState.firstMemorizedAt =
      some (some 1770026400000) := by
  exact ⟨by decide, by decide⟩

/-- C1 (amended): reducing the S1 event sequence from the initial state
produces checkpointIndex 7, reviewIntervalSeconds 7776000,
consecutivePerfectDays 8, tier MANZIL, and firstMemorizedAt =
2026-02-02T10:00:00Z — the occurredAt of the first (here: the second)
event whose resulting checkpoint index is ≥ 2, as the per-event
checkpoint trace `[1, 2, 3, 4, 5, 6, 7, 7]` shows. -/
theorem s1_perfect_ladder_final_state :
    (rebuildItemState s1Events).map (fun st =>
        (st.checkpointIndex, st.intervalSeconds, st.consecutivePerfectDays, st.tier,
         st.firstMemorizedAt))
      = some (7, 7776000, 8, ReviewTier.MANZIL, some 1770026400000) ∧
    intervalCheckpointTrace s1Events = [1, 2, 3, 4, 5, 6, 7, 7] ∧
    (s1Events.getD 1 ⟨0, false, 0, 0⟩).occurredAt = 1770026400000 := by
  exact ⟨by decide, by decide, by decide⟩

/-- C3: for every event sequence, the reduced state satisfies the
promotion-gate invariant — a MANZIL tier implies at least seven
consecutive perfect UTC days (the checkpoint-derived MANZIL is demoted
to SABQI whenever the streak is below seven). -/
theorem manzil_requires_seven_perfect_days (events : List StoredReviewEvent)
    (st : ItemState) (h : rebuildItemState events = some st)
    (hm : st.tier = ReviewTier.MANZIL) : 7 ≤ st.consecutivePerfectDays := by
  cases events with
  | nil => simp [rebuildItemState] at h
  | cons e0 rest =>
    have hst : st = (e0 :: rest).foldl applyEvent (initialItemState e0) := by
      have hr : rebuildItemState (e0 :: rest) =
          some ((e0 :: rest).foldl applyEvent (initialItemState e0)) := rfl
      rw [hr] at h
      exact (Option.some.inj h).symm
    subst hst
    refine foldl_applyEvent_manzil _ _ ?_ hm
    intro hti
    simp [initialItemState] at hti

/-- C3 witness: the S1 sequence reaches MANZIL with an 8-day streak. -/
theorem manzil_requires_seven_perfect_days_witness :
    7 ≤ s1FinalState.consecutivePerfectDays :=
  manzil_requires_seven_perfect_days s1Events s1FinalState (by decide) (by decide)

/-- C6: one attempt is perfect iff `success ∧ errorsCount = 0`, minor iff
`success ∧ 1 ≤ errorsCount ≤ 2`, fail iff `¬success ∨ errorsCount > 2`;
on checkpoint index `i ≤ 7` the new index is `min (i+1) 7` / `i` / `0`
respectively and the next review is scheduled at
`occurredAt + ladder[newIndex]`; and the S2 sequence (three perfect
events, then `success=false, errorsCount=3`) ends with checkpointIndex 0,
interval 14400 s, consecutivePerfectDays 0, lastPerfectDay null, tier
SABAQ. -/
theorem outcome_transition_schedule :
    (∀ (s : Bool) (e : Nat),
      (outcomeFromAttempt s e = ReviewOutcome.perfect ↔ s = true ∧ e = 0) ∧
      (outcomeFromAttempt s e = ReviewOutcome.minor ↔ s = true ∧ 1 ≤ e ∧ e ≤ 2) ∧
      (outcomeFromAttempt s e = ReviewOutcome.fail ↔ s = false ∨ 2 < e)) ∧
    (∀ i : Nat, i ≤ 7 →
      nextCheckpointIndex i ReviewOutcome.perfect = min (i + 1) 7 ∧
      nextCheckpointIndex i ReviewOutcome.minor = i ∧
      nextCheckpointIndex i ReviewOutcome.fail = 0 ∧
      (∀ (s : Bool) (e : Nat) (t : Int),
        calculateNextReview (SRS_CHECKPOINTS_SECONDS.getD i 0) s e t =
          { nextReviewAt := addSeconds t
              ((SRS_CHECKPOINTS_SECONDS.getD
                  (nextCheckpointIndex i (outcomeFromAttempt s e)) 0 : Nat) : Int)
            reviewIntervalSeconds :=
              SRS_CHECKPOINTS_SECONDS.getD
                (nextCheckpointIndex i (outcomeFromAttempt s e)) 0
            checkpointIndex := nextCheckpointIndex i (outcomeFromAttempt s e) })) ∧
    (rebuildItemState s2Events).map (fun st =>
        (st.checkpointIndex, st.intervalSeconds, st.consecutivePerfectDays,
         st.lastPerfectDay, st.tier))
      = some (0, 14400, 0, none, ReviewTier.SABAQ) := by
  refine ⟨?_, ?_, by decide⟩
  · intro s e
    exact ⟨outcome_perfect_iff s e, outcome_minor_iff s e, outcome_fail_iff s e⟩
  · intro i h
    exact ⟨rfl, rfl, rfl, fun s e t => calculateNextReview_ladder i h s e t⟩

/-- C6 witness: the schedule equation instantiated at index 3 with the
failing S2 attempt. -/
theorem outcome_transition_schedule_witness :
    calculateNextReview (SRS_CHECKPOINTS_SECONDS.getD 3 0) false 3 1770199200000 =
      { nextReviewAt := addSeconds 1770199200000
          ((SRS_CHECKPOINTS_SECONDS.getD
              (nextCheckpointIndex 3 (outcomeFromAttempt false 3)) 0 : Nat) : Int)
        reviewIntervalSeconds :=
          SRS_CHECKPOINTS_SECONDS.getD
            (nextCheckpointIndex 3 (outcomeFromAttempt false 3)) 0
        checkpointIndex := nextCheckpointIndex 3 (outcomeFromAttempt false 3) } :=
  (outcome_transition_schedule.2.1 3 (by decide)).2.2.2 false 3 1770199200000

/-- C10: `checkpointIndexForInterval` is a left inverse of the ladder on
its eight entries, and therefore the reducer's fold — which carries only
the interval seconds between events and re-derives the index inside
`calculateNextReview` — produces the same checkpoint index at every step
as a fold that carries the index directly. -/
theorem srs_index_interval_roundtrip :
    (∀ i : Nat, i ≤ 7 →
      checkpointIndexForInterval (SRS_CHECKPOINTS_SECONDS.getD i 0) = i) ∧
    ∀ events : List StoredReviewEvent,
      intervalCheckpointTrace events = directIndexTrace events := by
  constructor
  · exact checkpointIndexForInterval_ladder
  · intro events
    unfold intervalCheckpointTrace directIndexTrace
    have h0 : (4 * 60 * 60 : Nat) = SRS_CHECKPOINTS_SECONDS.getD 0 0 := rfl
    rw [h0, foldl_interval_index events 0 [] (by omega)]

/-- C10 witness: the left inverse at index 5, and trace agreement on the
concrete S2 sequence. -/
theorem srs_index_interval_roundtrip_witness :
    checkpointIndexForInterval (SRS_CHECKPOINTS_SECONDS.getD 5 0) = 5 ∧
    intervalCheckpointTrace s2Events = directIndexTrace s2Events :=
  ⟨srs_index_interval_roundtrip.1 5 (by decide),
   srs_index_interval_roundtrip.2 s2Events⟩

/-! ## Fluency gate (`src/modules/fluencyGate/fluency-gate.service.ts`)

The request schema forces integer `duration_seconds` and `error_count`,
so both are `Nat` here; the score intermediates are exact rationals. -/

/-- JS `Math.round`: round half toward `+∞`. -/
def jsRound (x : ℚ) : Int :=
  ⌊x + 1 / 2⌋

structure FluencyScoreResult where
  fluency_score : Int
  time_score : Int
  accuracy_score : Int
  passed : Bool
deriving DecidableEq, Repr

def calculateFluencyScore (durationSeconds errorCount : Nat) : FluencyScoreResult :=
  let timeScore : ℚ :=
    if durationSeconds < 180 then 50
    else max 0 (50 - ((durationSeconds : ℚ) - 180) / 6)
  let accuracyScore : ℚ :=
    if errorCount < 5 then 50
    else max 0 (50 - ((errorCount : ℚ) - 5) * 5)
  let fluencyScore := jsRound (timeScore + accuracyScore)
  { fluency_score := fluencyScore
    time_score := jsRound timeScore
    accuracy_score := jsRound accuracyScore
    passed := 70 ≤ fluencyScore }

/-- The spec's `timeScore` formula (§4.4), with no rounding. -/
def specTimeScore (durationSeconds : Nat) : ℚ :=
  if durationSeconds < 180 then 50
  else max 0 (50 - ((durationSeconds : ℚ) - 180) / 6)

/-- The spec's `accuracyScore` formula (§4.4), with no rounding. -/
def specAccuracyScore (errorCount : Nat) : ℚ :=
  if errorCount < 5 then 50
  else max 0 (50 - ((errorCount : ℚ) - 5) * 5)

/-- The spec's fluency score: `timeScore + accuracyScore`, with no
rounding — written from the spec's words, for comparison with the
code's `calculateFluencyScore`. -/
def specFluencyScore (durationSeconds errorCount : Nat) : ℚ :=
  specTimeScore durationSeconds + specAccuracyScore errorCount

/-- C4 (counterexample): at durationSeconds = 363, errorCount = 0 the
spec's score `timeScore + accuracyScore` is 139/2 < 70, yet the code
stores `Math.round(139/2) = 70` and passes the test — the claim's "the
score is timeScore + accuracyScore" and "passes iff fluencyScore ≥ 70"
are both false of the code at this input. -/
theorem fluency_round_boundary_counterexample :
    specFluencyScore 363 0 < 70 ∧
    calculateFluencyScore 363 0 =
      { fluency_score := 70, time_score := 20, accuracy_score := 50, passed := true } := by
  constructor
  · unfold specFluencyScore specTimeScore specAccuracyScore
    rw [if_neg (by norm_num), if_pos (by norm_num), max_eq_right (by norm_num)]
    norm_num
  · unfold calculateFluencyScore jsRound
    rw [if_neg (by norm_num), if_pos (by norm_num), max_eq_right (by norm_num)]
    simp only [FluencyScoreResult.mk.injEq]
    norm_num [Int.floor_eq_iff]

/-- C4 (amended): for every submitted test, the stored fluency score is
the half-up rounding of `timeScore + accuracyScore` (with the spec's
formulas for both), the stored component scores are rounded likewise,
and the test passes iff the rounded score is ≥ 70. In particular
durationSeconds = 175, errorCount = 3 give timeScore 50, accuracyScore
50, fluencyScore 100, passed. -/
theorem fluency_score_rounded_spec :
    (∀ d e : Nat,
      (calculateFluencyScore d e).fluency_score = jsRound (specFluencyScore d e) ∧
      (calculateFluencyScore d e).time_score = jsRound (specTimeScore d) ∧
      (calculateFluencyScore d e).accuracy_score = jsRound (specAccuracyScore e) ∧
      ((calculateFluencyScore d e).passed = true ↔
        70 ≤ jsRound (specFluencyScore d e))) ∧
    calculateFluencyScore 175 3 =
      { fluency_score := 100, time_score := 50, accuracy_score := 50, passed := true } := by
  constructor
  · intro d e
    refine ⟨rfl, rfl, rfl, ?_⟩
    exact decide_eq_true_iff
  · unfold calculateFluencyScore jsRound
    rw [if_pos (by norm_num), if_pos (by norm_num)]
    simp only [FluencyScoreResult.mk.injEq]
    norm_num [Int.floor_eq_iff]

/-! ## Queue planner (`src/modules/queue/queue.service.ts`) -/

inductive QueueMode where
  | NORMAL
  | CONSOLIDATION
  | REVIEW_ONLY
deriving DecidableEq, Repr

structure DebtMetrics where
  dueItemsCount : Nat
  backlogMinutesEstimate : Int
  overdueDaysMax : Int
  freezeThresholdMinutes : Int
deriving DecidableEq, Repr

structure WarmupEvaluation where
  totalItems : Nat
  passed : Bool
  failed : Bool
  pending : Bool
  passingAyahIds : List Nat
  failingAyahIds : List Nat
deriving DecidableEq, Repr

/-- `diffInDaysFloor` from `src/lib/time.ts` (milliseconds). -/
def diffInDaysFloor (later earlier : Int) : Int :=
  Int.fdiv (later - earlier) 86400000

def calculateDebtMetrics (dueItemsCount avgSecondsPerItem timeBudgetMinutes : Nat)
    (backlogFreezeRatio : ℚ) (now : Int) (earliestDueAt : Option Int) : DebtMetrics :=
  { dueItemsCount := dueItemsCount
    backlogMinutesEstimate := ((dueItemsCount * avgSecondsPerItem + 59) / 60 : Nat)
    overdueDaysMax :=
      match earliestDueAt with
      | some earliest => if earliest ≤ now then diffInDaysFloor now earliest else 0
      | none => 0
    freezeThresholdMinutes := ⌊(timeBudgetMinutes : ℚ) * backlogFreezeRatio⌋ }

def determineQueueMode (debt : DebtMetrics) (retentionRolling7d retentionThreshold : ℚ)
    (warmup : WarmupEvaluation) : QueueMode :=
  let debtFreeze :=
    decide (debt.freezeThresholdMinutes < debt.backlogMinutesEstimate) ||
      decide ((2 : Int) < debt.overdueDaysMax)
  if debtFreeze || warmup.failed then QueueMode.REVIEW_ONLY
  else if retentionRolling7d < retentionThreshold then QueueMode.CONSOLIDATION
  else QueueMode.NORMAL

/-- C5: the selected mode is REVIEW_ONLY iff the backlog estimate
strictly exceeds the freeze threshold, or the oldest overdue item is
more than 2 days overdue, or the warm-up failed; otherwise CONSOLIDATION
iff the rolling retention is below the threshold; otherwise NORMAL. A
backlog exactly equal to the threshold never triggers a freeze. -/
theorem queue_mode_selection (debt : DebtMetrics)
    (retention retentionThreshold : ℚ) (warmup : WarmupEvaluation) :
    (determineQueueMode debt retention retentionThreshold warmup = QueueMode.REVIEW_ONLY ↔
      debt.freezeThresholdMinutes < debt.backlogMinutesEstimate ∨
        2 < debt.overdueDaysMax ∨ warmup.failed = true) ∧
    (determineQueueMode debt retention retentionThreshold warmup = QueueMode.CONSOLIDATION ↔
      ¬(debt.freezeThresholdMinutes < debt.backlogMinutesEstimate ∨
          2 < debt.overdueDaysMax ∨ warmup.failed = true) ∧
        retention < retentionThreshold) ∧
    (determineQueueMode debt retention retentionThreshold warmup = QueueMode.NORMAL ↔
      ¬(debt.freezeThresholdMinutes < debt.backlogMinutesEstimate ∨
          2 < debt.overdueDaysMax ∨ warmup.failed = true) ∧
        ¬retention < retentionThreshold) ∧
    (debt.backlogMinutesEstimate = debt.freezeThresholdMinutes ∧
        debt.overdueDaysMax ≤ 2 ∧ warmup.failed = false →
      determineQueueMode debt retention retentionThreshold warmup ≠ QueueMode.REVIEW_ONLY) := by
  have hm : determineQueueMode debt retention retentionThreshold warmup =
      if debt.freezeThresholdMinutes < debt.backlogMinutesEstimate ∨
          2 < debt.overdueDaysMax ∨ warmup.failed = true
      then QueueMode.REVIEW_ONLY
      else if retention < retentionThreshold then QueueMode.CONSOLIDATION
      else QueueMode.NORMAL := by
    simp [determineQueueMode, Bool.or_eq_true, decide_eq_true_eq, or_assoc]
  by_cases hd : debt.freezeThresholdMinutes < debt.backlogMinutesEstimate ∨
      2 < debt.overdueDaysMax ∨ warmup.failed = true
  · rw [if_pos hd] at hm
    refine ⟨iff_of_true hm hd, iff_of_false (by simp [hm]) (fun h => h.1 hd),
      iff_of_false (by simp [hm]) (fun h => h.1 hd), ?_⟩
    rintro ⟨hb, ho, hf2⟩ _
    rcases hd with hc | hc | hc
    · omega
    · omega
    · rw [hf2] at hc
      cases hc
  · rw [if_neg hd] at hm
    by_cases h3 : retention < retentionThreshold
    · rw [if_pos h3] at hm
      refine ⟨iff_of_false (by simp [hm]) hd, iff_of_true hm ⟨hd, h3⟩,
        iff_of_false (by simp [hm]) (fun h => h.2 h3), ?_⟩
      intro _ hmode
      rw [hm] at hmode
      exact absurd hmode (by decide)
    · rw [if_neg h3] at hm
      refine ⟨iff_of_false (by simp [hm]) hd, iff_of_false (by simp [hm]) (fun h => h3 h.2),
        iff_of_true hm ⟨hd, h3⟩, ?_⟩
      intro _ hmode
      rw [hm] at hmode
      exact absurd hmode (by decide)

/-- C5 witness: the S4-style debt profile (backlog 113 > threshold 48)
forces REVIEW_ONLY, while a backlog exactly at the threshold does not. -/
theorem queue_mode_selection_witness :
    determineQueueMode ⟨90, 113, 0, 48⟩ 1 1 ⟨0, true, false, false, [], []⟩ =
        QueueMode.REVIEW_ONLY ∧
    determineQueueMode ⟨1, 48, 0, 48⟩ 1 0 ⟨0, true, false, false, [], []⟩ ≠
        QueueMode.REVIEW_ONLY :=
  ⟨(queue_mode_selection ⟨90, 113, 0, 48⟩ 1 1 ⟨0, true, false, false, [], []⟩).1.mpr
      (Or.inl (by decide)),
   (queue_mode_selection ⟨1, 48, 0, 48⟩ 1 0 ⟨0, true, false, false, [], []⟩).2.2.2
      ⟨rfl, by decide, rfl⟩⟩

/-! ## Warm-up evaluation (`evaluateWarmup`) -/

structure WarmupAttempt where
  ayahId : Nat
  success : Bool
  errorsCount : Nat
deriving DecidableEq, Repr

/-- The attempts recorded today for one warm-up item (the code groups
`attempts` into a map by `ayahId`; filtering preserves exactly the
per-item lists that map holds). -/
def attemptsFor (attempts : List WarmupAttempt) (ayahId : Nat) : List WarmupAttempt :=
  attempts.filter (fun a => a.ayahId == ayahId)

/-- `itemAttempts.some(a => a.success && a.errorsCount <= 1)`. -/
def itemHasPass (attempts : List WarmupAttempt) (ayahId : Nat) : Bool :=
  (attemptsFor attempts ayahId).any (fun a => a.success && a.errorsCount ≤ 1)

def evaluateWarmup (ayahIds : List Nat) (attempts : List WarmupAttempt) :
    WarmupEvaluation :=
  if ayahIds.length = 0 then
    { totalItems := 0
      passed := true
      failed := false
      pending := false
      passingAyahIds := []
      failingAyahIds := [] }
  else
    let passingAyahIds := ayahIds.filter (fun a => itemHasPass attempts a)
    let failingAyahIds :=
      ayahIds.filter (fun a => !(attemptsFor attempts a).isEmpty && !itemHasPass attempts a)
    let pendingCount := (ayahIds.filter (fun a => (attemptsFor attempts a).isEmpty)).length
    { totalItems := ayahIds.length
      passed := passingAyahIds.length = ayahIds.length
      failed := 0 < failingAyahIds.length
      pending := 0 < pendingCount
      passingAyahIds := passingAyahIds
      failingAyahIds := failingAyahIds }

lemma itemHasPass_iff (attempts : List WarmupAttempt) (a : Nat) :
    itemHasPass attempts a = true ↔
      ∃ t ∈ attempts, t.ayahId = a ∧ t.success = true ∧ t.errorsCount ≤ 1 := by
  simp only [itemHasPass, attemptsFor, List.any_eq_true, List.mem_filter, beq_iff_eq,
    Bool.and_eq_true, decide_eq_true_eq]
  tauto

lemma itemEmpty_iff (attempts : List WarmupAttempt) (a : Nat) :
    (attemptsFor attempts a).isEmpty = true ↔ ¬∃ t ∈ attempts, t.ayahId = a := by
  simp only [attemptsFor, List.isEmpty_iff, List.filter_eq_nil_iff, beq_iff_eq]
  push_neg
  exact Iff.rfl

/-- C8: an item of the warm-up set passes iff one of its attempts has
`success ∧ errorsCount ≤ 1`, fails iff it has attempts but none pass,
and is pending iff it has none; the warm-up passes iff every item
passes, fails iff some item fails, is pending iff some item is pending;
with no items introduced yesterday the result is
`passed = true, failed = false, pending = false`. -/
theorem warmup_evaluation (ayahIds : List Nat) (attempts : List WarmupAttempt) :
    ((evaluateWarmup ayahIds attempts).passed = true ↔
      ∀ a ∈ ayahIds, ∃ t ∈ attempts, t.ayahId = a ∧ t.success = true ∧ t.errorsCount ≤ 1) ∧
    ((evaluateWarmup ayahIds attempts).failed = true ↔
      ∃ a ∈ ayahIds, (∃ t ∈ attempts, t.ayahId = a) ∧
        ¬∃ t ∈ attempts, t.ayahId = a ∧ t.success = true ∧ t.errorsCount ≤ 1) ∧
    ((evaluateWarmup ayahIds attempts).pending = true ↔
      ∃ a ∈ ayahIds, ¬∃ t ∈ attempts, t.ayahId = a) ∧
    evaluateWarmup [] attempts =
      { totalItems := 0, passed := true, failed := false, pending := false,
        passingAyahIds := [], failingAyahIds := [] } := by
  by_cases h0 : ayahIds.length = 0
  · have hnil : ayahIds = [] := List.length_eq_zero.mp h0
    subst hnil
    refine ⟨?_, ?_, ?_, rfl⟩ <;> simp [evaluateWarmup]
  · refine ⟨?_, ?_, ?_, rfl⟩
    · simp only [evaluateWarmup, if_neg h0, decide_eq_true_eq]
      rw [List.filter_length_eq_length]
      constructor
      · intro hall a ha
        exact (itemHasPass_iff attempts a).mp (hall a ha)
      · intro hall a ha
        exact (itemHasPass_iff attempts a).mpr (hall a ha)
    · simp only [evaluateWarmup, if_neg h0, decide_eq_true_eq]
      rw [List.length_pos_iff_exists_mem]
      constructor
      · rintro ⟨a, ha⟩
        rw [List.mem_filter] at ha
        rcases ha with ⟨ha, hq⟩
        simp only [Bool.and_eq_true, Bool.not_eq_true'] at hq
        refine ⟨a, ha, ?_, ?_⟩
        · by_contra hne
          exact absurd ((itemEmpty_iff attempts a).mpr hne) (by simp [hq.1])
        · intro hp
          exact absurd ((itemHasPass_iff attempts a).mpr hp) (by simp [hq.2])
      · rintro ⟨a, ha, hne, hnp⟩
        refine ⟨a, List.mem_filter.mpr ⟨ha, ?_⟩⟩
        simp only [Bool.and_eq_true, Bool.not_eq_true']
        constructor
        · by_contra hemp
          simp only [Bool.not_eq_false] at hemp
          exact (itemEmpty_iff attempts a).mp hemp hne
        · by_contra hhp
          simp only [Bool.not_eq_false] at hhp
          exact hnp ((itemHasPass_iff attempts a).mp hhp)
    · simp only [evaluateWarmup, if_neg h0, decide_eq_true_eq]
      rw [List.length_pos_iff_exists_mem]
      constructor
      · rintro ⟨a, ha⟩
        rw [List.mem_filter] at ha
        exact ⟨a, ha.1, (itemEmpty_iff attempts a).mp ha.2⟩
      · rintro ⟨a, ha, hne⟩
        exact ⟨a, List.mem_filter.mpr ⟨ha, (itemEmpty_iff attempts a).mpr hne⟩⟩

/-! ## Session step protocol (`src/modules/session/session.service.ts`) -/

inductive ReviewStepType where
  | EXPOSURE
  | GUIDED
  | BLIND
  | LINK
deriving DecidableEq, Repr

inductive ScaffoldingLevel where
  | BEGINNER
  | STANDARD
  | MINIMAL
deriving DecidableEq, Repr

structure ProtocolStep where
  step : ReviewStepType
  attempts : Nat
  optional : Bool
deriving DecidableEq, Repr

structure StepProtocol where
  scaffoldingLevel : ScaffoldingLevel
  steps : List ProtocolStep
deriving DecidableEq, Repr

def buildProtocol (scaffoldingLevel : ScaffoldingLevel) : StepProtocol :=
  match scaffoldingLevel with
  | ScaffoldingLevel.BEGINNER =>
    { scaffoldingLevel
      steps := [⟨ReviewStepType.EXPOSURE, 3, false⟩, ⟨ReviewStepType.GUIDED, 3, false⟩,
                ⟨ReviewStepType.BLIND, 3, false⟩, ⟨ReviewStepType.LINK, 3, false⟩] }
  | ScaffoldingLevel.MINIMAL =>
    { scaffoldingLevel
      steps := [⟨ReviewStepType.EXPOSURE, 3, true⟩, ⟨ReviewStepType.GUIDED, 3, true⟩,
                ⟨ReviewStepType.BLIND, 3, false⟩, ⟨ReviewStepType.LINK, 3, false⟩] }
  | ScaffoldingLevel.STANDARD =>
    { scaffoldingLevel
      steps := [⟨ReviewStepType.EXPOSURE, 3, false⟩, ⟨ReviewStepType.GUIDED, 1, false⟩,
                ⟨ReviewStepType.BLIND, 3, false⟩, ⟨ReviewStepType.LINK, 3, false⟩] }

structure StepExpectation where
  expectedStep : Option ReviewStepType
  expectedAttempt : Option Nat
  completed : Bool
deriving DecidableEq, Repr

def expectedFromSteps (counts : ReviewStepType → Nat) :
    List ProtocolStep → StepExpectation
  | [] => { expectedStep := none, expectedAttempt := none, completed := true }
  | s :: rest =>
    if s.optional then expectedFromSteps counts rest
    else if counts s.step < s.attempts then
      { expectedStep := some s.step
        expectedAttempt := some (counts s.step + 1)
        completed := false }
    else expectedFromSteps counts rest

def expectedFromProtocol (protocol : StepProtocol) (counts : ReviewStepType → Nat) :
    StepExpectation :=
  expectedFromSteps counts protocol.steps

inductive StepRejectReason where
  | MISMATCH_EXPECTED
  | OPTIONAL_STEP_OUT_OF_SEQUENCE
  | OPTIONAL_STEP_ATTEMPT_INVALID
deriving DecidableEq, Repr

/-- `validateStepAttempt`; `none` is `{valid: true}`, `some r` is
`{valid: false, reason: r}`. -/
def validateStepAttempt (protocol : StepProtocol) (expected : StepExpectation)
    (counts : ReviewStepType → Nat) (stepType : ReviewStepType) (attemptNumber : Nat) :
    Option StepRejectReason :=
  if expected.completed then some StepRejectReason.MISMATCH_EXPECTED
  else
    match protocol.steps.find? (fun s => s.optional && s.step == stepType) with
    | some optionalStep =>
      if expected.expectedStep ≠ some ReviewStepType.BLIND then
        some StepRejectReason.OPTIONAL_STEP_OUT_OF_SEQUENCE
      else
        let observed := counts stepType
        let expectedOptionalAttempt := observed + 1
        if attemptNumber ≠ expectedOptionalAttempt ∨ optionalStep.attempts < attemptNumber then
          some StepRejectReason.OPTIONAL_STEP_ATTEMPT_INVALID
        else none
    | none =>
      if some stepType ≠ expected.expectedStep ∨ some attemptNumber ≠ expected.expectedAttempt then
        some StepRejectReason.MISMATCH_EXPECTED
      else none

structure InvalidStepError where
  status : Nat
  code : String
  expected_step : Option ReviewStepType
  expected_attempt : Option Nat
  required_protocol : List (ReviewStepType × Nat × Bool)
deriving DecidableEq, Repr

def protocolSummary (protocol : StepProtocol) : List (ReviewStepType × Nat × Bool) :=
  protocol.steps.map (fun s => (s.step, s.attempts, s.optional))

def buildInvalidStepSequenceError (expected : StepExpectation) (protocol : StepProtocol) :
    InvalidStepError :=
  { status := 409
    code := "INVALID_STEP_SEQUENCE"
    expected_step := expected.expectedStep
    expected_attempt := expected.expectedAttempt
    required_protocol := protocolSummary protocol }

lemma expectedFromSteps_eq_find (counts : ReviewStepType → Nat) (steps : List ProtocolStep) :
    expectedFromSteps counts steps =
      match steps.find? (fun s => !s.optional && decide (counts s.step < s.attempts)) with
      | some s =>
        { expectedStep := some s.step, expectedAttempt := some (counts s.step + 1),
          completed := false }
      | none => { expectedStep := none, expectedAttempt := none, completed := true } := by
  induction steps with
  | nil => rfl
  | cons s rest ih =>
    by_cases hopt : s.optional = true
    · rw [List.find?_cons_of_neg _ (by simp [hopt])]
      rw [show expectedFromSteps counts (s :: rest) = expectedFromSteps counts rest by
        simp [expectedFromSteps, hopt]]
      exact ih
    · by_cases hlt : counts s.step < s.attempts
      · rw [List.find?_cons_of_pos _ (by simp [hopt, hlt])]
        simp [expectedFromSteps, hopt, hlt]
      · rw [List.find?_cons_of_neg _ (by simp [hopt, hlt])]
        rw [show expectedFromSteps counts (s :: rest) = expectedFromSteps counts rest by
          simp [expectedFromSteps, hopt, hlt]]
        exact ih

lemma buildProtocol_step_unique (lvl : ScaffoldingLevel) :
    ∀ s1 ∈ (buildProtocol lvl).steps, ∀ s2 ∈ (buildProtocol lvl).steps,
      s1.step = s2.step → s1 = s2 := by
  cases lvl <;> decide

end Hifzer
namespace Hifzer

/-- C7: `expected(counts)` is the first non-optional step of the protocol
whose observed count is below its required attempts (expected attempt =
observed + 1), with `completed = true` when every non-optional step is
satisfied; a submitted step is accepted iff the expectation is not
completed and either it exactly matches the expected step and attempt,
or it is an optional step of the protocol, the expected step is BLIND,
and its attempt number is `observed + 1` and at most the step's required
attempts. For a STANDARD user with no prior events, submitting
`LINK, attempt 1` is rejected with MISMATCH_EXPECTED and the 409
INVALID_STEP_SEQUENCE payload carries `expected_step = EXPOSURE`,
`expected_attempt = 1`, and the full protocol. -/
theorem step_protocol_validation :
    (∀ (lvl : ScaffoldingLevel) (counts : ReviewStepType → Nat) (s : ProtocolStep),
      (buildProtocol lvl).steps.find?
          (fun st => !st.optional && decide (counts st.step < st.attempts)) = some s →
      expectedFromProtocol (buildProtocol lvl) counts =
        { expectedStep := some s.step, expectedAttempt := some (counts s.step + 1),
          completed := false }) ∧
    (∀ (lvl : ScaffoldingLevel) (counts : ReviewStepType → Nat),
      (buildProtocol lvl).steps.find?
          (fun st => !st.optional && decide (counts st.step < st.attempts)) = none →
      expectedFromProtocol (buildProtocol lvl) counts =
        { expectedStep := none, expectedAttempt := none, completed := true }) ∧
    (∀ (lvl : ScaffoldingLevel) (counts : ReviewStepType → Nat)
        (stepType : ReviewStepType) (attemptNumber : Nat),
      validateStepAttempt (buildProtocol lvl) (expectedFromProtocol (buildProtocol lvl) counts)
          counts stepType attemptNumber = none ↔
        (expectedFromProtocol (buildProtocol lvl) counts).completed = false ∧
          (((expectedFromProtocol (buildProtocol lvl) counts).expectedStep = some stepType ∧
            (expectedFromProtocol (buildProtocol lvl) counts).expectedAttempt = some attemptNumber) ∨
           ((expectedFromProtocol (buildProtocol lvl) counts).expectedStep =
              some ReviewStepType.BLIND ∧
            ∃ s ∈ (buildProtocol lvl).steps, s.optional = true ∧ s.step = stepType ∧
              attemptNumber = counts stepType + 1 ∧ attemptNumber ≤ s.attempts))) ∧
    (expectedFromProtocol (buildProtocol ScaffoldingLevel.STANDARD) (fun _ => 0) =
        { expectedStep := some ReviewStepType.EXPOSURE, expectedAttempt := some 1,
          completed := false } ∧
      validateStepAttempt (buildProtocol ScaffoldingLevel.STANDARD)
          (expectedFromProtocol (buildProtocol ScaffoldingLevel.STANDARD) (fun _ => 0))
          (fun _ => 0) ReviewStepType.LINK 1 = some StepRejectReason.MISMATCH_EXPECTED ∧
      buildInvalidStepSequenceError
          (expectedFromProtocol (buildProtocol ScaffoldingLevel.STANDARD) (fun _ => 0))
          (buildProtocol ScaffoldingLevel.STANDARD) =
        { status := 409, code := "INVALID_STEP_SEQUENCE",
          expected_step := some ReviewStepType.EXPOSURE, expected_attempt := some 1,
          required_protocol :=
            [(ReviewStepType.EXPOSURE, 3, false), (ReviewStepType.GUIDED, 1, false),
             (ReviewStepType.BLIND, 3, false), (ReviewStepType.LINK, 3, false)] }) := by
  refine ⟨?_, ?_, ?_, by decide, by decide, by decide⟩
  · intro lvl counts s hf
    unfold expectedFromProtocol
    rw [expectedFromSteps_eq_find, hf]
  · intro lvl counts hf
    unfold expectedFromProtocol
    rw [expectedFromSteps_eq_find, hf]
  · intro lvl counts stepType attemptNumber
    have hE := expectedFromSteps_eq_find counts (buildProtocol lvl).steps
    cases hfind : (buildProtocol lvl).steps.find?
        (fun st => !st.optional && decide (counts st.step < st.attempts)) with
    | none =>
      rw [hfind] at hE
      simp [validateStepAttempt, expectedFromProtocol, hE]
    | some ms =>
      rw [hfind] at hE
      have hmem : ms ∈ (buildProtocol lvl).steps := List.mem_of_find?_eq_some hfind
      have hprop := List.find?_some hfind
      simp only [Bool.and_eq_true, Bool.not_eq_true', decide_eq_true_eq] at hprop
      cases hopt : (buildProtocol lvl).steps.find?
          (fun s => s.optional && s.step == stepType) with
      | some os =>
        have hosmem : os ∈ (buildProtocol lvl).steps := List.mem_of_find?_eq_some hopt
        have hosprop := List.find?_some hopt
        simp only [Bool.and_eq_true, beq_iff_eq] at hosprop
        have hne : ms.step ≠ stepType := by
          intro he
          have heq : ms = os :=
            buildProtocol_step_unique lvl ms hmem os hosmem (by rw [he, hosprop.2])
          rw [heq, hosprop.1] at hprop
          exact absurd hprop.1 (by simp)
        have hex : (∃ s ∈ (buildProtocol lvl).steps, s.optional = true ∧ s.step = stepType ∧
            attemptNumber = counts stepType + 1 ∧ attemptNumber ≤ s.attempts) ↔
            (attemptNumber = counts stepType + 1 ∧ attemptNumber ≤ os.attempts) := by
          constructor
          · rintro ⟨s, hs, hso, hss, hp⟩
            have heq : s = os :=
              buildProtocol_step_unique lvl s hs os hosmem (by rw [hss, hosprop.2])
            rwa [heq] at hp
          · intro hp
            exact ⟨os, hosmem, hosprop.1, hosprop.2, hp⟩
        simp only [validateStepAttempt, expectedFromProtocol, hE, hopt, Bool.false_eq_true,
          if_false]
        split_ifs with hblind hatt
        · refine iff_of_false (by simp) ?_
          rintro ⟨-, h1 | h2⟩
          · exact hne (Option.some.inj h1.1)
          · exact hblind h2.1
        · refine iff_of_false (by simp) ?_
          rintro ⟨-, h1 | h2⟩
          · exact hne (Option.some.inj h1.1)
          · rcases hex.mp h2.2 with ⟨ha1, ha2⟩
            rcases hatt with hx | hx
            · exact hx ha1
            · omega
        · simp only [ne_eq, not_or, not_not, not_lt] at hblind hatt
          exact iff_of_true rfl ⟨trivial, Or.inr ⟨hblind, hex.mpr ⟨hatt.1, hatt.2⟩⟩⟩
      | none =>
        have hnone := List.find?_eq_none.mp hopt
        have hnoopt : ¬∃ s ∈ (buildProtocol lvl).steps, s.optional = true ∧ s.step = stepType ∧
            attemptNumber = counts stepType + 1 ∧ attemptNumber ≤ s.attempts := by
          rintro ⟨s, hs, hso, hss, -⟩
          have := hnone s hs
          simp [hso, hss] at this
        simp only [validateStepAttempt, expectedFromProtocol, hE, hopt, Bool.false_eq_true,
          if_false]
        split_ifs with hmis
        · refine iff_of_false (by simp) ?_
          rintro ⟨-, h1 | h2⟩
          · rcases hmis with hx | hx
            · exact hx h1.1.symm
            · exact hx h1.2.symm
          · exact hnoopt h2.2
        · simp only [ne_eq, not_or, not_not] at hmis
          exact iff_of_true rfl ⟨trivial, Or.inl ⟨hmis.1.symm, hmis.2.symm⟩⟩


/-- C7 witness: for a MINIMAL user with no prior events the expectation
is BLIND attempt 1, and an optional EXPOSURE attempt 1 is accepted. -/
theorem step_protocol_validation_witness :
    expectedFromProtocol (buildProtocol ScaffoldingLevel.MINIMAL) (fun _ => 0) =
      { expectedStep := some ReviewStepType.BLIND, expectedAttempt := some 1,
        completed := false } ∧
    validateStepAttempt (buildProtocol ScaffoldingLevel.MINIMAL)
        (expectedFromProtocol (buildProtocol ScaffoldingLevel.MINIMAL) (fun _ => 0))
        (fun _ => 0) ReviewStepType.EXPOSURE 1 = none :=
  ⟨step_protocol_validation.1 ScaffoldingLevel.MINIMAL (fun _ => 0)
      ⟨ReviewStepType.BLIND, 3, false⟩ (by decide),
   (step_protocol_validation.2.2.1 ScaffoldingLevel.MINIMAL (fun _ => 0)
        ReviewStepType.EXPOSURE 1).mpr
      ⟨by decide, Or.inr ⟨by decide,
        ⟨ReviewStepType.EXPOSURE, 3, true⟩, by decide, rfl, rfl, by decide, by decide⟩⟩⟩


/-! ## Manzil rotation (`buildManzilQueue`, `sortByRisk`) -/

/-- The fields of `UserItemState` that the Manzil queue logic reads (the
`ayah` sub-record and `intervalCheckpointIndex` are response payload
only and play no part in ordering or selection). The difficulty score is
in hundredths, as in `ItemState`. -/
structure RiskState where
  ayahId : Nat
  tier : ReviewTier
  nextReviewAt : Int
  lapses : Nat
  difficultyScore : Nat
  lastErrorsCount : Nat
deriving DecidableEq, Repr

def overdueSeconds (now : Int) (s : RiskState) : Int :=
  max 0 (Int.fdiv (now - s.nextReviewAt) 1000)

/-- The `sortByRisk` comparator as a strict precedence test: `a` comes
before `b` iff the comparator value is negative — larger overdue first,
then more lapses, then higher difficulty, then more recent errors. -/
def riskBefore (now : Int) (a b : RiskState) : Bool :=
  if overdueSeconds now a = overdueSeconds now b then
    if a.lapses = b.lapses then
      if a.difficultyScore = b.difficultyScore then
        decide (b.lastErrorsCount < a.lastErrorsCount)
      else decide (b.difficultyScore < a.difficultyScore)
    else decide (b.lapses < a.lapses)
  else decide (overdueSeconds now b < overdueSeconds now a)

def insertByRisk (now : Int) (x : RiskState) : List RiskState → List RiskState
  | [] => [x]
  | y :: ys => if riskBefore now x y then x :: y :: ys else y :: insertByRisk now x ys

/-- Stable sort by the risk comparator (a later element overtakes an
earlier one only when it strictly precedes it), which is the order the
ECMAScript stable `Array.prototype.sort` produces for this comparator. -/
def sortRisk (now : Int) (l : List RiskState) : List RiskState :=
  l.foldl (fun acc x => insertByRisk now x acc) []

def buildManzilQueue (dueManzilStates activeManzilStates : List RiskState)
    (manzilRotationDays : Nat) (now : Int) : List RiskState :=
  let dueSorted := sortRisk now dueManzilStates
  let rotationDays := max 1 manzilRotationDays
  let targetCount := max 1 ((activeManzilStates.length + rotationDays - 1) / rotationDays)
  if targetCount ≤ dueSorted.length then dueSorted
  else
    let included := dueSorted.map (fun s => s.ayahId)
    let fillers := sortRisk now
      (activeManzilStates.filter (fun s => !(included.contains s.ayahId)))
    dueSorted ++ fillers.take (targetCount - dueSorted.length)

lemma insertByRisk_length (now : Int) (x : RiskState) (l : List RiskState) :
    (insertByRisk now x l).length = l.length + 1 := by
  induction l with
  | nil => rfl
  | cons y ys ih =>
    by_cases h : riskBefore now x y = true
    · simp [insertByRisk, h]
    · simp [insertByRisk, h, ih]

lemma sortRisk_length (now : Int) (l : List RiskState) :
    (sortRisk now l).length = l.length := by
  suffices h : ∀ acc : List RiskState,
      (l.foldl (fun acc x => insertByRisk now x acc) acc).length = acc.length + l.length by
    simpa using h []
  induction l with
  | nil => intro acc; simp
  | cons y ys ih =>
    intro acc
    simp only [List.foldl_cons]
    rw [ih (insertByRisk now y acc), insertByRisk_length]
    simp only [List.length_cons]
    omega

lemma insertByRisk_mem (now : Int) (x y : RiskState) (l : List RiskState) :
    y ∈ insertByRisk now x l ↔ y = x ∨ y ∈ l := by
  induction l with
  | nil => simp [insertByRisk]
  | cons z zs ih =>
    by_cases h : riskBefore now x z = true
    · simp [insertByRisk, h]
    · simp [insertByRisk, h, ih]
      tauto

lemma sortRisk_mem (now : Int) (y : RiskState) (l : List RiskState) :
    y ∈ sortRisk now l ↔ y ∈ l := by
  suffices h : ∀ acc : List RiskState,
      (y ∈ l.foldl (fun acc x => insertByRisk now x acc) acc ↔ y ∈ acc ∨ y ∈ l) by
    simpa using h []
  induction l with
  | nil => intro acc; simp
  | cons z zs ih =>
    intro acc
    simp only [List.foldl_cons]
    rw [ih (insertByRisk now z acc), insertByRisk_mem]
    simp
    tauto

end Hifzer
namespace Hifzer

lemma add_pred_div_eq_rat_ceil (a b : Nat) (hb : 0 < b) :
    (((a + b - 1) / b : Nat) : ℤ) = ⌈(a : ℚ) / (b : ℚ)⌉ := by
  have hbq : (0 : ℚ) < (b : ℚ) := by exact_mod_cast hb
  set q := (a + b - 1) / b with hq
  have h1 : q * b ≤ a + b - 1 := Nat.div_mul_le_self _ _
  have h2 : a + b - 1 < (q + 1) * b := by
    rw [hq]
    exact (Nat.div_lt_iff_lt_mul hb).mp (Nat.lt_succ_self _)
  rw [add_mul, one_mul] at h2
  have h3 : q * b < a + b := by omega
  have h4 : a ≤ q * b := by omega
  symm
  rw [Int.ceil_eq_iff]
  constructor
  · rw [lt_div_iff₀ hbq]
    have hc : (q * b : ℚ) < a + b := by exact_mod_cast h3
    push_cast
    nlinarith
  · rw [div_le_iff₀ hbq]
    have hc : (a : ℚ) ≤ q * b := by exact_mod_cast h4
    push_cast
    exact hc

/-- C9: the Manzil queue targets `t = max(1, ceil(activeCount / max(1,
manzilRotationDays)))` (the integer formula `(a + b - 1) / b` is the
rational ceiling); when at least `t` items are due the queue is exactly
the risk-sorted due list, otherwise it is the risk-sorted due list
followed by risk-sorted not-yet-due active MANZIL items (those whose
ayahId is not among the due ones) up to size `t` or until exhausted — so
with no due items and at least one active item the queue surfaces at
least one not-yet-due filler. -/
theorem manzil_rotation_queue
    (dueManzilStates activeManzilStates : List RiskState)
    (manzilRotationDays : Nat) (now : Int) :
    (∀ a b : Nat, 0 < b → (((a + b - 1) / b : Nat) : ℤ) = ⌈(a : ℚ) / (b : ℚ)⌉) ∧
    (max 1 ((activeManzilStates.length + max 1 manzilRotationDays - 1) /
          max 1 manzilRotationDays) ≤ dueManzilStates.length →
      buildManzilQueue dueManzilStates activeManzilStates manzilRotationDays now =
        sortRisk now dueManzilStates) ∧
    (dueManzilStates.length <
        max 1 ((activeManzilStates.length + max 1 manzilRotationDays - 1) /
          max 1 manzilRotationDays) →
      buildManzilQueue dueManzilStates activeManzilStates manzilRotationDays now =
        sortRisk now dueManzilStates ++
          (sortRisk now (activeManzilStates.filter (fun s =>
            !(((sortRisk now dueManzilStates).map (fun r => r.ayahId)).contains
                s.ayahId)))).take
            (max 1 ((activeManzilStates.length + max 1 manzilRotationDays - 1) /
              max 1 manzilRotationDays) - dueManzilStates.length)) ∧
    (dueManzilStates = [] → activeManzilStates ≠ [] →
      buildManzilQueue dueManzilStates activeManzilStates manzilRotationDays now ≠ [] ∧
      ∀ x ∈ buildManzilQueue dueManzilStates activeManzilStates manzilRotationDays now,
        x ∈ activeManzilStates) := by
  refine ⟨add_pred_div_eq_rat_ceil, ?_, ?_, ?_⟩
  · intro h
    simp only [buildManzilQueue]
    rw [if_pos (by rw [sortRisk_length]; exact h)]
  · intro h
    simp only [buildManzilQueue]
    rw [if_neg (by rw [sortRisk_length]; omega), sortRisk_length]
  · intro hdue hact
    subst hdue
    have hnil : sortRisk now ([] : List RiskState) = [] := rfl
    have hfil : activeManzilStates.filter (fun s =>
        !(((sortRisk now ([] : List RiskState)).map (fun r => r.ayahId)).contains
            s.ayahId)) = activeManzilStates := by
      simp [hnil]
    have hlen : 0 < activeManzilStates.length := List.length_pos.mpr hact
    have hcond : ¬(max 1 ((activeManzilStates.length + max 1 manzilRotationDays - 1) /
        max 1 manzilRotationDays) ≤ (sortRisk now ([] : List RiskState)).length) := by
      rw [sortRisk_length]
      simp only [List.length_nil]
      omega
    constructor
    · simp only [buildManzilQueue]
      rw [if_neg hcond, hfil, hnil, List.nil_append]
      intro hcon
      have hlc := congrArg List.length hcon
      simp only [List.length_take, sortRisk_length, List.length_nil] at hlc
      omega
    · intro x hx
      simp only [buildManzilQueue] at hx
      rw [if_neg hcond, hfil, hnil, List.nil_append] at hx
      exact (sortRisk_mem now x activeManzilStates).mp (List.take_subset _ _ hx)

/-- C9 witness: `(5+3-1)/3 = ceil(5/3)`, and a single active MANZIL item
with nothing due still yields a non-empty queue. -/
theorem manzil_rotation_queue_witness :
    (((5 + 3 - 1) / 3 : Nat) : ℤ) = ⌈(5 : ℚ) / (3 : ℚ)⌉ ∧
    buildManzilQueue [] [⟨1, ReviewTier.MANZIL, 0, 0, 0, 0⟩] 30 0 ≠ [] :=
  ⟨(manzil_rotation_queue [] [] 0 0).1 5 3 (by decide),
   ((manzil_rotation_queue [] [⟨1, ReviewTier.MANZIL, 0, 0, 0, 0⟩] 30 0).2.2.2 rfl
      (by decide)).1⟩



/-! ## Event store (`ingestReviewEvent` in
`src/modules/session/session.service.ts`)

The database is modelled as an explicit store; `ingestReviewEvent`
becomes a state transformer on it. The unique `(userId, clientEventId)`
constraint that makes `reviewEvent.create` throw `P2002` is modelled by
the up-front key test — the code catches that error and returns
`{deduplicated: true}` before any side effect runs. The scheduled or
inline reducer run is modelled as an immediate replay, and the
row's per-variant column nulling is observationally irrelevant here: the
replay only ever reads `REVIEW_ATTEMPTED` rows, whose stored columns
equal the input's fields. -/

inductive ReviewEventType where
  | REVIEW_ATTEMPTED
  | TRANSITION_ATTEMPTED
deriving DecidableEq, Repr

structure ReviewEventInput where
  client_event_id : String
  session_id : Option String
  event_type : ReviewEventType
  occurred_at : Int
  item_ayah_id : Nat
  step_type : Option ReviewStepType
  linked_ayah_id : Option Nat
  success : Bool
  errors_count : Nat
  duration_seconds : Nat
  from_ayah_id : Nat
  to_ayah_id : Nat
deriving DecidableEq, Repr

structure StoredEventRow where
  id : Nat
  userId : String
  input : ReviewEventInput
deriving DecidableEq, Repr

structure Store where
  nextEventId : Nat
  events : List StoredEventRow
  sessionEventsCount : String → Nat
  itemStates : String → Nat → Option ItemState
  transitionScores : String → Nat → Nat → Nat × Nat × Option Int

def hasEventKey (s : Store) (userId clientEventId : String) : Bool :=
  s.events.any (fun r => r.userId == userId && r.input.client_event_id == clientEventId)

def countKeyIn (rows : List StoredEventRow) (userId clientEventId : String) : Nat :=
  (rows.filter (fun r =>
    r.userId == userId && r.input.client_event_id == clientEventId)).length

def countEventKey (s : Store) (userId clientEventId : String) : Nat :=
  countKeyIn s.events userId clientEventId

/-- The `REVIEW_ATTEMPTED` rows of one `(user, ayah)` pair, in insertion
(`id`) order, projected to what the reducer reads. -/
def eventsForItem (s : Store) (userId : String) (ayahId : Nat) : List StoredReviewEvent :=
  (s.events.filter (fun r => r.userId == userId &&
      r.input.event_type == ReviewEventType.REVIEW_ATTEMPTED &&
      r.input.item_ayah_id == ayahId)).map
    (fun r => ⟨r.input.occurred_at, r.input.success, r.input.errors_count,
      r.input.duration_seconds⟩)

def insertByOccurredAt (e : StoredReviewEvent) :
    List StoredReviewEvent → List StoredReviewEvent
  | [] => [e]
  | x :: xs => if e.occurredAt < x.occurredAt then e :: x :: xs else x :: insertByOccurredAt e xs

/-- Stable sort by `occurredAt`: ties keep insertion (`id`) order, which
is the reducer's `orderBy: [{occurredAt: asc}, {id: asc}]`. -/
def sortByOccurredAt (l : List StoredReviewEvent) : List StoredReviewEvent :=
  l.foldl (fun acc x => insertByOccurredAt x acc) []

/-- `updateTransitionScoreFromEvent`: upsert incrementing the counters;
an absent row is the zero row, so create and update coincide. -/
def updateTransitionScoreFromEvent (s : Store) (userId : String)
    (fromAyahId toAyahId : Nat) (success : Bool) (occurredAt : Int) : Store :=
  { s with transitionScores := fun u f t =>
      if u = userId ∧ f = fromAyahId ∧ t = toAyahId then
        ((s.transitionScores u f t).1 + 1,
         (s.transitionScores u f t).2.1 + (if success then 1 else 0),
         some occurredAt)
      else s.transitionScores u f t }

/-- `rebuildItemState` as run against the store: replay the pair's
events; when there are none the upsert is skipped and any existing row
is kept. -/
def rebuildInStore (s : Store) (userId : String) (ayahId : Nat) : Store :=
  { s with itemStates := fun u a =>
      if u = userId ∧ a = ayahId then
        match rebuildItemState (sortByOccurredAt (eventsForItem s userId ayahId)) with
        | some st => some st
        | none => s.itemStates u a
      else s.itemStates u a }

def ingestReviewEvent (s : Store) (userId : String) (input : ReviewEventInput) :
    (Bool × Option Nat) × Store :=
  if hasEventKey s userId input.client_event_id then
    ((true, none), s)
  else
    let row : StoredEventRow := ⟨s.nextEventId, userId, input⟩
    let s1 : Store :=
      { s with nextEventId := s.nextEventId + 1, events := s.events ++ [row] }
    let s2 : Store :=
      match input.session_id with
      | some sessionId =>
        { s1 with sessionEventsCount := fun sid =>
            if sid = sessionId then s1.sessionEventsCount sid + 1
            else s1.sessionEventsCount sid }
      | none => s1
    let s3 : Store :=
      if input.event_type = ReviewEventType.REVIEW_ATTEMPTED then
        let s3a := rebuildInStore s2 userId input.item_ayah_id
        if input.step_type = some ReviewStepType.LINK then
          match input.linked_ayah_id with
          | some linked =>
            updateTransitionScoreFromEvent s3a userId input.item_ayah_id linked
              input.success input.occurred_at
          | none => s3a
        else s3a
      else
        updateTransitionScoreFromEvent s2 userId input.from_ayah_id input.to_ayah_id
          input.success input.occurred_at
    ((false, some row.id), s3)

lemma ingest_events_of_new (s : Store) (userId : String) (input : ReviewEventInput)
    (h : hasEventKey s userId input.client_event_id = false) :
    (ingestReviewEvent s userId input).2.events =
      s.events ++ [⟨s.nextEventId, userId, input⟩] := by
  simp only [ingestReviewEvent, h, Bool.false_eq_true, if_false]
  cases hs : input.session_id <;>
    by_cases ht : input.event_type = ReviewEventType.REVIEW_ATTEMPTED <;>
      by_cases hl : input.step_type = some ReviewStepType.LINK <;>
        cases hla : input.linked_ayah_id <;>
          simp [ht, hl, hla, rebuildInStore, updateTransitionScoreFromEvent]

lemma ingest_flag_of_new (s : Store) (userId : String) (input : ReviewEventInput)
    (h : hasEventKey s userId input.client_event_id = false) :
    (ingestReviewEvent s userId input).1 = (false, some s.nextEventId) := by
  simp only [ingestReviewEvent, h, Bool.false_eq_true, if_false]

lemma countKeyIn_append (l1 l2 : List StoredEventRow) (u k : String) :
    countKeyIn (l1 ++ l2) u k = countKeyIn l1 u k + countKeyIn l2 u k := by
  simp [countKeyIn, List.filter_append]

lemma hasEventKey_iff_count (s : Store) (u k : String) :
    hasEventKey s u k = true ↔ countEventKey s u k ≠ 0 := by
  rw [countEventKey, countKeyIn, ← Nat.pos_iff_ne_zero, List.length_pos_iff_exists_mem]
  simp only [hasEventKey, List.any_eq_true, List.mem_filter]

end Hifzer
namespace Hifzer

lemma ingest_dedup (t : Store) (userId : String) (input : ReviewEventInput)
    (h : hasEventKey t userId input.client_event_id = true) :
    ingestReviewEvent t userId input = ((true, none), t) := by
  simp [ingestReviewEvent, h]

/-- C2: ingest inserts exactly one row keyed by
`(userId, clientEventId)` — the key's count rises by one and no other
key's count changes; when the key already exists it returns
`{deduplicated: true}` and the store (events, session counters, item
states, transition scores) is unchanged; ingesting the same input twice
from a key-free store answers `deduplicated = false` then
`deduplicated = true` and leaves exactly one stored row. -/
theorem ingest_idempotent (s : Store) (userId : String) (input : ReviewEventInput) :
    (hasEventKey s userId input.client_event_id = true →
      ingestReviewEvent s userId input = ((true, none), s)) ∧
    (hasEventKey s userId input.client_event_id = false →
      (ingestReviewEvent s userId input).1 = (false, some s.nextEventId) ∧
      countEventKey (ingestReviewEvent s userId input).2 userId input.client_event_id =
        countEventKey s userId input.client_event_id + 1 ∧
      (∀ u k : String, ¬(u = userId ∧ k = input.client_event_id) →
        countEventKey (ingestReviewEvent s userId input).2 u k = countEventKey s u k) ∧
      ingestReviewEvent (ingestReviewEvent s userId input).2 userId input =
        ((true, none), (ingestReviewEvent s userId input).2)) ∧
    (countEventKey s userId input.client_event_id = 0 →
      countEventKey (ingestReviewEvent s userId input).2 userId input.client_event_id = 1) := by
  refine ⟨ingest_dedup s userId input, ?_, ?_⟩
  · intro h
    have hev := ingest_events_of_new s userId input h
    have hone : countKeyIn [⟨s.nextEventId, userId, input⟩] userId input.client_event_id = 1 := by
      simp [countKeyIn]
    refine ⟨ingest_flag_of_new s userId input h, ?_, ?_, ?_⟩
    · rw [countEventKey, hev, countKeyIn_append, hone]
      rfl
    · intro u k hne
      have hz : countKeyIn [⟨s.nextEventId, userId, input⟩] u k = 0 := by
        by_cases hu : userId = u
        · subst hu
          have hk : ¬(input.client_event_id = k) := fun hk => hne ⟨rfl, hk.symm⟩
          simp [countKeyIn, hk]
        · simp [countKeyIn, hu]
      rw [countEventKey, hev, countKeyIn_append, hz]
      rfl
    · have hkey : hasEventKey (ingestReviewEvent s userId input).2 userId
          input.client_event_id = true := by
        simp only [hasEventKey, hev, List.any_append, List.any_cons, List.any_nil]
        simp
      exact ingest_dedup _ userId input hkey
  · intro h0
    have h : hasEventKey s userId input.client_event_id = false := by
      cases hk : hasEventKey s userId input.client_event_id
      · rfl
      · exact absurd h0 ((hasEventKey_iff_count s userId input.client_event_id).mp hk)
    have hone : countKeyIn [⟨s.nextEventId, userId, input⟩] userId input.client_event_id = 1 := by
      simp [countKeyIn]
    rw [countEventKey, ingest_events_of_new s userId input h, countKeyIn_append, hone]
    rw [countEventKey] at h0
    rw [h0]

def emptyStore : Store :=
  { nextEventId := 0
    events := []
    sessionEventsCount := fun _ => 0
    itemStates := fun _ _ => none
    transitionScores := fun _ _ _ => (0, 0, none) }

/-- The S3 event: `clientEventId = 5a3c9566-617e-4ad0-80e8-81a4616d57a7`. -/
def sampleEventInput : ReviewEventInput :=
  { client_event_id := "5a3c9566-617e-4ad0-80e8-81a4616d57a7"
    session_id := none
    event_type := ReviewEventType.REVIEW_ATTEMPTED
    occurred_at := 1769940000000
    item_ayah_id := 1
    step_type := none
    linked_ayah_id := none
    success := true
    errors_count := 0
    duration_seconds := 30
    from_ayah_id := 0
    to_ayah_id := 0 }

/-- C2 witness: submitting the S3 event twice to an empty store gives
`deduplicated = false` then `deduplicated = true`, one stored row, and
the second call leaves the store unchanged. -/
theorem ingest_idempotent_witness :
    (ingestReviewEvent emptyStore "u1" sampleEventInput).1 = (false, some 0) ∧
    countEventKey (ingestReviewEvent emptyStore "u1" sampleEventInput).2 "u1"
      sampleEventInput.client_event_id = 1 ∧
    ingestReviewEvent (ingestReviewEvent emptyStore "u1" sampleEventInput).2 "u1"
        sampleEventInput =
      ((true, none), (ingestReviewEvent emptyStore "u1" sampleEventInput).2) :=
  ⟨((ingest_idempotent emptyStore "u1" sampleEventInput).2.1 rfl).1,
   (ingest_idempotent emptyStore "u1" sampleEventInput).2.2 rfl,
   ((ingest_idempotent emptyStore "u1" sampleEventInput).2.1 rfl).2.2.2⟩

end Hifzer
